import Mathlib

/-!
Verification of `streamlit_app.py` (AIML Project 2320040027).

Shallow embedding of: the amino-acid alphabet and its integer mapping,
the sequence encoder `encode_sequence` (including the Keras
`pad_sequences` call it delegates to, with its explicit `padding='post'`
and its default `truncating='pre'`), the shape semantics of the Keras
layer graph built by `build_complex_model`, the PDB-text formatter inside
`visualize_3d_structure`, and the Streamlit boundary-validation flow.
Input strings are modelled as `List Char`.
-/

set_option maxRecDepth 40000

/- ## Data model: alphabet and integer mapping -/

/-- `amino_acids = 'ACDEFGHIKLMNPQRSTVWY'` (the fixed 20-letter alphabet). -/
def amino_acids : List Char :=
  ['A','C','D','E','F','G','H','I','K','L','M','N','P','Q','R','S','T','V','W','Y']

/-- `aa_to_int = {aa: i + 1 for i, aa in enumerate(amino_acids)}`, read through
`aa_to_int.get(aa, 0)`: the dictionary written out (A↦1, C↦2, …, Y↦20), with the
lookup default 0 for every character outside the alphabet. -/
def aa_to_int (c : Char) : Nat :=
  if c = 'A' then 1 else if c = 'C' then 2 else if c = 'D' then 3
  else if c = 'E' then 4 else if c = 'F' then 5 else if c = 'G' then 6
  else if c = 'H' then 7 else if c = 'I' then 8 else if c = 'K' then 9
  else if c = 'L' then 10 else if c = 'M' then 11 else if c = 'N' then 12
  else if c = 'P' then 13 else if c = 'Q' then 14 else if c = 'R' then 15
  else if c = 'S' then 16 else if c = 'T' then 17 else if c = 'V' then 18
  else if c = 'W' then 19 else if c = 'Y' then 20 else 0

/- ## The encoder -/

/-- `[aa_to_int.get(aa, 0) for aa in sequence if aa in aa_to_int]`:
keep only alphabet characters, in order, and map each to its 1-based index. -/
def encodedList (sequence : List Char) : List Nat :=
  (sequence.filter (fun aa => amino_acids.contains aa)).map (fun aa => aa_to_int aa)

/-- Keras `pad_sequences([xs], maxlen, padding='post')` acting on the single row:
with the library default `truncating='pre'` it keeps the LAST `maxlen` entries
when the row is longer than `maxlen`, and otherwise appends zeros on the right. -/
def pad_sequences_row (xs : List Nat) (maxlen : Nat) : List Nat :=
  if maxlen ≤ xs.length then xs.drop (xs.length - maxlen)
  else xs ++ List.replicate (maxlen - xs.length) 0

/-- The single row of `encode_sequence(sequence, max_len)`. -/
def encode_row (sequence : List Char) (max_len : Nat) : List Nat :=
  pad_sequences_row (encodedList sequence) max_len

/-- `encode_sequence(sequence, max_len)`: `pad_sequences` wraps the one encoded
row in a leading batch dimension, so the returned value is a 2-D array of shape
`(1, max_len)`, modelled as a one-element list of rows. -/
def encode_sequence (sequence : List Char) (max_len : Nat) : List (List Nat) :=
  [encode_row sequence max_len]

/-- The spec-side filter: the subsequence of characters that belong to the
alphabet (used to state the drop-not-replace property of claim C4). -/
def filter_alphabet (sequence : List Char) : List Char :=
  sequence.filter (fun aa => amino_acids.contains aa)

/- ## Structural lemmas about the encoder -/

theorem pad_sequences_row_length (xs : List Nat) (maxlen : Nat) :
    (pad_sequences_row xs maxlen).length = maxlen := by
  unfold pad_sequences_row
  split <;> simp <;> omega

theorem pad_sequences_row_eq (xs : List Nat) (maxlen : Nat) :
    pad_sequences_row xs maxlen =
      (if maxlen ≤ xs.length then xs.drop (xs.length - maxlen) else xs) ++
        List.replicate (maxlen - xs.length) 0 := by
  unfold pad_sequences_row
  split
  · have : maxlen - xs.length = 0 := by omega
    simp [this]
  · rfl

theorem mem_encodedList_bounds (s : List Char) (x : Nat) (hx : x ∈ encodedList s) :
    1 ≤ x ∧ x ≤ 20 := by
  unfold encodedList at hx
  obtain ⟨c, hc, rfl⟩ := List.mem_map.mp hx
  have hmem : c ∈ amino_acids := by
    have := (List.mem_filter.mp hc).2
    simpa [List.contains, List.elem_iff] using this
  revert hmem
  have : ∀ c ∈ amino_acids, 1 ≤ aa_to_int c ∧ aa_to_int c ≤ 20 := by decide
  exact this c

/- ## Claim theorems about the encoder -/

/-- Claim C5: the encoder's output row always has length exactly `max_len`,
for every input string and every `max_len` (hence in particular 150 for
length-≤150 all-alphabet inputs). -/
theorem encode_row_length (sequence : List Char) (max_len : Nat) :
    (encode_row sequence max_len).length = max_len :=
  pad_sequences_row_length _ _

/-- Claim C10: `encode_sequence` returns a 2-D array of shape `(1, max_len)` at
`max_len = 150`: the outer list has exactly one element, the inner row has
length 150 (mapping each row to its length yields exactly `[150]`). -/
theorem encode_sequence_batch_shape (sequence : List Char) :
    (encode_sequence sequence 150).map List.length = [150] := by
  simp [encode_sequence, encode_row, pad_sequences_row_length]

/-- Claim C9: encoding the empty string gives 150 zeros (in the single row). -/
theorem encode_empty_zeros :
    encode_sequence [] 150 = [List.replicate 150 0] := by decide

/-- Claim C4: characters outside the alphabet are dropped entirely (positions
shift left) rather than replaced in place: encoding a string equals encoding
its alphabet-filtered subsequence, for every string and every `max_len`. -/
theorem encode_drops_invalid_chars (sequence : List Char) (max_len : Nat) :
    encode_sequence sequence max_len =
      encode_sequence (filter_alphabet sequence) max_len := by
  simp [encode_sequence, encode_row, encodedList, filter_alphabet, List.filter_filter]

/-- Claim C7: the alphabet is fixed with exactly 20 distinct single-character
members, mapped by `aa_to_int` to exactly the integers 1,…,20 in order (so each
member gets a unique integer in [1,20] and none maps to the reserved 0). -/
theorem alphabet_mapping_invariant :
    amino_acids.length = 20 ∧ amino_acids.Nodup ∧
      amino_acids.map aa_to_int = (List.range 20).map (· + 1) ∧
      amino_acids.all (fun c => decide (1 ≤ aa_to_int c ∧ aa_to_int c ≤ 20)) = true := by
  refine ⟨by decide, by decide, by decide, by decide⟩

/-- Claim C8: every entry of the encoded row is an integer in [0, 20]; entries
below the real (truncated) sequence length are in [1, 20], and every entry from
the real length onward is 0 — so 0 appears only in padding positions. -/
theorem encode_range_and_padding (sequence : List Char) (max_len : Nat) :
    ((encode_row sequence max_len).all (fun x => decide (x ≤ 20))) = true ∧
      ((encode_row sequence max_len).take
          (min (encodedList sequence).length max_len)).all
        (fun x => decide (1 ≤ x)) = true ∧
      (encode_row sequence max_len).drop
          (min (encodedList sequence).length max_len) =
        List.replicate (max_len - (encodedList sequence).length) 0 := by
  have hrow := pad_sequences_row_eq (encodedList sequence) max_len
  set e := encodedList sequence with he
  by_cases h : max_len ≤ e.length
  · have hd0 : max_len - e.length = 0 := by omega
    have hmin : min e.length max_len = max_len := by omega
    have hrow' : encode_row sequence max_len = e.drop (e.length - max_len) := by
      rw [encode_row, ← he, hrow, if_pos h, hd0]; simp
    have hlen : (encode_row sequence max_len).length = max_len :=
      pad_sequences_row_length _ _
    refine ⟨?_, ?_, ?_⟩
    · rw [List.all_eq_true]
      intro x hx
      rw [hrow'] at hx
      have := mem_encodedList_bounds sequence x (List.mem_of_mem_drop hx)
      simpa using this.2
    · rw [List.all_eq_true]
      intro x hx
      have hx' := List.mem_of_mem_take hx
      rw [hrow'] at hx'
      have := mem_encodedList_bounds sequence x (List.mem_of_mem_drop hx')
      simpa using this.1
    · rw [hmin, hd0, List.drop_eq_nil_of_le (by omega)]
      simp
  · push_neg at h
    have hmin : min e.length max_len = e.length := by omega
    have hrow' : encode_row sequence max_len =
        e ++ List.replicate (max_len - e.length) 0 := by
      rw [encode_row, ← he, hrow, if_neg (by omega)]
    refine ⟨?_, ?_, ?_⟩
    · rw [List.all_eq_true]
      intro x hx
      rw [hrow'] at hx
      rcases List.mem_append.mp hx with hx' | hx'
      · have := mem_encodedList_bounds sequence x hx'
        simpa using this.2
      · have := List.eq_of_mem_replicate hx'
        simp [this]
    · rw [List.all_eq_true]
      intro x hx
      rw [hmin, hrow', List.take_append_of_le_length (le_refl _), List.take_length] at hx
      have := mem_encodedList_bounds sequence x hx
      simpa using this.1
    · rw [hmin, hrow', List.drop_append_of_le_length (le_refl _), List.drop_length]
      simp

/- ## Streamlit boundary validation flow -/

/-- Observable outcome of one Streamlit script run: which inline errors are
shown and whether the prediction branch (encode + model build + predict) runs. -/
structure UIOutcome where
  lengthErrorShown : Bool
  invalidCharsErrorShown : Bool
  predictionPathEntered : Bool
deriving DecidableEq, Repr

/-- The script body: `if len(sequence) > 150: st.error(...)` runs
unconditionally; the predict-button handler checks only
`all(aa in amino_acids for aa in sequence)` and otherwise shows the
invalid-characters error. The length check does not gate the handler. -/
def uiFlow (sequence : List Char) (buttonPressed : Bool) : UIOutcome :=
  { lengthErrorShown := decide (150 < sequence.length)
    invalidCharsErrorShown :=
      buttonPressed && !(sequence.all (fun aa => amino_acids.contains aa))
    predictionPathEntered :=
      buttonPressed && sequence.all (fun aa => amino_acids.contains aa) }

/-- A 151-character sequence made only of alphabet characters. -/
def seq151 : List Char := List.replicate 151 'A'

/-- Claim C1 counterexample: on a 151-character valid sequence with the button
pressed, the too-long error is shown AND the prediction path is still entered,
so over-length inputs are not rejected before invoking the predictor. -/
theorem ui_length_overflow_counterexample :
    (uiFlow seq151 true).lengthErrorShown = true ∧
      (uiFlow seq151 true).predictionPathEntered = true := by decide

/-- Claim C1 (amended): an over-length sequence gets the error message (but is
not thereby blocked); a sequence with any character outside the alphabet never
enters the prediction path and gets the invalid-characters error on click; an
all-alphabet sequence enters the prediction path exactly when clicked. -/
theorem ui_validation_amended (sequence : List Char) (buttonPressed : Bool) :
    (150 < sequence.length →
      (uiFlow sequence buttonPressed).lengthErrorShown = true) ∧
    (sequence.all (fun aa => amino_acids.contains aa) = false →
      (uiFlow sequence buttonPressed).predictionPathEntered = false ∧
        (uiFlow sequence buttonPressed).invalidCharsErrorShown = buttonPressed) ∧
    (sequence.all (fun aa => amino_acids.contains aa) = true →
      (uiFlow sequence buttonPressed).predictionPathEntered = buttonPressed) := by
  refine ⟨fun h => ?_, fun h => ⟨?_, ?_⟩, fun h => ?_⟩
  · exact decide_eq_true h
  · show (buttonPressed && _) = false
    rw [h, Bool.and_false]
  · show (buttonPressed && !_) = buttonPressed
    rw [h, Bool.not_false, Bool.and_true]
  · show (buttonPressed && _) = buttonPressed
    rw [h, Bool.and_true]

/-- Concrete instance of `ui_validation_amended`. -/
theorem ui_validation_amended_witness :
    (uiFlow seq151 true).lengthErrorShown = true ∧
      (uiFlow ['A', 'X'] true).predictionPathEntered = false :=
  ⟨(ui_validation_amended seq151 true).1 (by decide),
   ((ui_validation_amended ['A', 'X'] true).2.1 (by decide)).1⟩

/- ## Truncation side (claim C2) -/

/-- 151 valid characters: an A followed by 150 Cs. -/
def seq151AC : List Char := 'A' :: List.replicate 150 'C'

/-- Claim C2 counterexample: on 151 valid characters the encoder does NOT
return the first 150 codes — `pad_sequences`' default `truncating='pre'` drops
from the left instead. -/
theorem encode_truncation_counterexample :
    encode_row seq151AC 150 ≠ (encodedList seq151AC).take 150 := by decide

/-- Claim C2 (amended): when more than 150 valid-alphabet characters remain
after filtering, the encoder returns the LAST 150 codes (truncation on the
left), and the result still has length exactly 150. -/
theorem encode_truncates_left (sequence : List Char)
    (h : 150 < (encodedList sequence).length) :
    encode_row sequence 150 =
      (encodedList sequence).drop ((encodedList sequence).length - 150) ∧
      (encode_row sequence 150).length = 150 := by
  refine ⟨?_, pad_sequences_row_length _ _⟩
  rw [encode_row, pad_sequences_row, if_pos (by omega)]

/-- Concrete instance of `encode_truncates_left`. -/
theorem encode_truncates_left_witness :
    encode_row seq151AC 150 =
      (encodedList seq151AC).drop ((encodedList seq151AC).length - 150) :=
  (encode_truncates_left seq151AC (by decide)).1

/- ## Shape semantics of the Keras layer graph (claim C3) -/

/-- `Embedding(input_dim, output_dim)` output shape: appends the embedding
dimension to the input shape (the input_dim does not affect the shape). -/
def embeddingShape (_input_dim output_dim : Nat) (s : List Nat) :
    Option (List Nat) :=
  some (s ++ [output_dim])

/-- `Dropout(rate)` keeps the shape. -/
def dropoutShape (s : List Nat) : Option (List Nat) := some s

/-- `Conv1D(filters, kernel_size, padding='same')` needs a rank-3 input
`(batch, steps, channels)` and keeps `steps` (same padding). -/
def conv1dSameShape (filters _kernel_size : Nat) : List Nat → Option (List Nat)
  | [b, steps, _channels] => some [b, steps, filters]
  | _ => none

/-- `BatchNormalization()` keeps the shape. -/
def batchNormalizationShape (s : List Nat) : Option (List Nat) := some s

/-- `LSTM(units, return_sequences)` needs a rank-3 input `(batch, steps,
features)`; it returns `(batch, steps, units)` with `return_sequences=True`
and `(batch, units)` otherwise. -/
def lstmShape (units : Nat) (return_sequences : Bool) :
    List Nat → Option (List Nat)
  | [b, steps, _features] =>
      if return_sequences then some [b, steps, units] else some [b, units]
  | _ => none

/-- `Attention()([query, value])` needs rank-3 inputs with matching batch and
feature dimensions and returns the query's shape. -/
def attentionShape : List Nat → List Nat → Option (List Nat)
  | [b, tq, d], [b2, _tv, d2] =>
      if b = b2 ∧ d = d2 then some [b, tq, d] else none
  | _, _ => none

/-- `concatenate` (default last axis) on rank-3 inputs. -/
def concatenateLastShape : List Nat → List Nat → Option (List Nat)
  | [b, t, d1], [b2, t2, d2] =>
      if b = b2 ∧ t = t2 then some [b, t, d1 + d2] else none
  | _, _ => none

/-- `GlobalAveragePooling1D()` requires a rank-3 input `(batch, steps,
features)` (its input spec is ndim=3) and averages out the steps axis. -/
def globalAveragePooling1dShape : List Nat → Option (List Nat)
  | [b, _steps, features] => some [b, features]
  | _ => none

/-- `Dense(units)` replaces the last (feature) axis by `units` (rank ≥ 2). -/
def denseShape (units : Nat) : List Nat → Option (List Nat)
  | [b, _features] => some [b, units]
  | [b, t, _features] => some [b, t, units]
  | _ => none

/-- The layer graph of `build_complex_model` up to (excluding) the
`GlobalAveragePooling1D` layer, for a batch of one sequence. -/
def build_complex_model_shape_pre_pooling (input_length : Nat) :
    Option (List Nat) :=
  (some [1, input_length]) >>=
    embeddingShape (amino_acids.length + 1) 128 >>= dropoutShape >>=
    conv1dSameShape 64 3 >>= batchNormalizationShape >>=
    conv1dSameShape 128 5 >>= batchNormalizationShape >>=
    lstmShape 256 true >>= dropoutShape >>=
    (fun x => attentionShape x x >>=
      fun attention => concatenateLastShape x attention) >>=
    lstmShape 128 false >>= dropoutShape

/-- The full layer graph of `build_complex_model`, for a batch of one. -/
def build_complex_model_output_shape (input_length : Nat) : Option (List Nat) :=
  build_complex_model_shape_pre_pooling input_length >>=
    globalAveragePooling1dShape >>=
    denseShape 128 >>= dropoutShape >>= denseShape 3

/-- `model.predict(...).reshape(-1, 3)`: the number of 3-tuples obtained from
an output of the given shape (defined when the element count is divisible
by 3). -/
def predict_reshape_rows (shape : List Nat) : Option Nat :=
  let total := shape.foldl (fun a b => a * b) 1
  if total % 3 = 0 then some (total / 3) else none

/-- Number of 3-tuples the app's predict-and-reshape step would produce. -/
def predict_output_count (input_length : Nat) : Option Nat :=
  build_complex_model_output_shape input_length >>= predict_reshape_rows

/-- Claim C3 evaluation: the graph reaches `GlobalAveragePooling1D` with the
rank-2 shape `(1, 128)` produced by `LSTM(128)`, which that layer rejects
(ndim=3 required), so building the model fails and the predict-and-reshape
step produces no output at all at the app's `input_length = 150`. -/
theorem build_complex_model_shape_bug :
    build_complex_model_shape_pre_pooling 150 = some [1, 128] ∧
      globalAveragePooling1dShape [1, 128] = none ∧
      build_complex_model_output_shape 150 = none ∧
      predict_output_count 150 = none :=
  ⟨rfl, rfl, rfl, rfl⟩

/- ## The PDB-text formatter in `visualize_3d_structure` (claim C6) -/

/-- Right-align a string in a field of width `w` by left-padding with spaces
(what Python's width specifiers `5d`, `4d`, `8.3f` do when the rendered value
is no wider than the field). -/
def padLeftStr (w : Nat) (s : String) : String :=
  String.mk (List.replicate (w - s.length) ' ') ++ s

/-- Zero-padded 3-digit fraction (for `n ≤ 999`). -/
def fracPart3 (n : Nat) : String :=
  (if n < 10 then "00" else if n < 100 then "0" else "") ++ toString n

/-- The digits of Python `f"{v:.3f}"` for the fixed-point value `m/1000`
(coordinates are modelled in thousandths, per the fixed-point field layout):
optional minus sign, integer part, point, three fraction digits. -/
def rawFixed3 (m : Int) : String :=
  (if m < 0 then "-" else "") ++ toString (m.natAbs / 1000) ++ "." ++
    fracPart3 (m.natAbs % 1000)

/-- Python `f"{v:8.3f}"` on the fixed-point value `m/1000`. -/
def fmtF8_3 (m : Int) : String := padLeftStr 8 (rawFixed3 m)

/-- Python `f"{n:wd}"`: decimal rendering right-aligned in width `w`. -/
def fmtRight (w : Nat) (n : Nat) : String := padLeftStr w (toString n)

/-- One line of the loop body:
`f"ATOM  {i+1:5d}  CA  ALA A{i+1:4d}    {x:8.3f}{y:8.3f}{z:8.3f}  1.00  0.00           C"`
(without the trailing newline). -/
def atomLine (i : Nat) (x y z : Int) : String :=
  "ATOM  " ++ fmtRight 5 (i + 1) ++ "  CA  ALA A" ++ fmtRight 4 (i + 1) ++
    "    " ++ fmtF8_3 x ++ fmtF8_3 y ++ fmtF8_3 z ++ "  1.00  0.00           C"

/-- The per-point lines produced by `for i, (x, y, z) in enumerate(prediction)`. -/
def atomLines (prediction : List (Int × Int × Int)) : List String :=
  prediction.enum.map (fun p => atomLine p.1 p.2.1 p.2.2.1 p.2.2.2)

/-- `pdb_data`: starts at `"MODEL\n"`, appends one line plus newline per point,
then appends `"ENDMDL\n"`. -/
def pdb_data (prediction : List (Int × Int × Int)) : String :=
  (prediction.enum.foldl
    (fun acc p => acc ++ (atomLine p.1 p.2.1 p.2.2.1 p.2.2.2 ++ "\n"))
    "MODEL\n") ++ "ENDMDL\n"

/-- Concatenation of a list of strings. -/
def joinLines : List String → String
  | [] => ""
  | l :: ls => l ++ joinLines ls

theorem foldl_append_eq_joinLines (lines : List String) (init : String) :
    lines.foldl (fun acc l => acc ++ l) init = init ++ joinLines lines := by
  induction lines generalizing init with
  | nil => simp [joinLines, String.append_empty]
  | cons hd tl ih =>
      rw [List.foldl_cons, ih (init ++ hd)]
      show init ++ hd ++ joinLines tl = init ++ (hd ++ joinLines tl)
      rw [String.append_assoc]

theorem padLeftStr_length (w : Nat) (s : String) (h : s.length ≤ w) :
    (padLeftStr w s).length = w := by
  simp [padLeftStr, String.length_append, String.length_mk]
  omega

theorem atomLine_length (i : Nat) (x y z : Int)
    (hser : (toString (i + 1) : String).length ≤ 4)
    (hx : (rawFixed3 x).length ≤ 8) (hy : (rawFixed3 y).length ≤ 8)
    (hz : (rawFixed3 z).length ≤ 8) :
    (atomLine i x y z).length = 78 := by
  have h5 : (fmtRight 5 (i + 1)).length = 5 :=
    padLeftStr_length _ _ (le_trans hser (by omega))
  have h4 : (fmtRight 4 (i + 1)).length = 4 := padLeftStr_length _ _ hser
  have hfx : (fmtF8_3 x).length = 8 := padLeftStr_length _ _ hx
  have hfy : (fmtF8_3 y).length = 8 := padLeftStr_length _ _ hy
  have hfz : (fmtF8_3 z).length = 8 := padLeftStr_length _ _ hz
  have l1 : ("ATOM  " : String).length = 6 := rfl
  have l2 : ("  CA  ALA A" : String).length = 11 := rfl
  have l3 : ("    " : String).length = 4 := rfl
  have l4 : ("  1.00  0.00           C" : String).length = 24 := rfl
  simp only [atomLine, String.length_append, h5, h4, hfx, hfy, hfz, l1, l2, l3,
    l4]

/-- Claim C6: for every list of points whose serial numbers and fixed-point
coordinate renderings fit their fields, `pdb_data` is the `MODEL` start
delimiter, then exactly one newline-terminated line per input point, then the
`ENDMDL` end delimiter; there are exactly as many lines as points, and every
line has the fixed width 78. -/
theorem pdb_format_lines (prediction : List (Int × Int × Int))
    (hser : ∀ i, i < prediction.length → (toString (i + 1) : String).length ≤ 4)
    (hfit : ∀ q ∈ prediction, (rawFixed3 q.1).length ≤ 8 ∧
      (rawFixed3 q.2.1).length ≤ 8 ∧ (rawFixed3 q.2.2).length ≤ 8) :
    pdb_data prediction =
        "MODEL\n" ++
          joinLines ((atomLines prediction).map (fun l => l ++ "\n")) ++
          "ENDMDL\n" ∧
      (atomLines prediction).length = prediction.length ∧
      ∀ l ∈ atomLines prediction, l.length = 78 := by
  refine ⟨?_, ?_, ?_⟩
  · rw [pdb_data]
    congr 1
    rw [atomLines, List.map_map, ← foldl_append_eq_joinLines, List.foldl_map]
    rfl
  · simp [atomLines, List.enum_length]
  · intro l hl
    obtain ⟨⟨i, q⟩, hp, rfl⟩ := List.mem_map.mp hl
    have hget : prediction[i]? = some q := List.mem_enum_iff_getElem?.mp hp
    have hi : i < prediction.length := (List.getElem?_eq_some.mp hget).1
    have hmem : q ∈ prediction := List.getElem?_mem hget
    exact atomLine_length i q.1 q.2.1 q.2.2 (hser i hi)
      (hfit q hmem).1 (hfit q hmem).2.1 (hfit q hmem).2.2

/-- Two concrete points (coordinates in thousandths): (1.234, −5.678, 0.000)
and (0.500, −0.250, 99.999). -/
def pdb_witness_points : List (Int × Int × Int) :=
  [(1234, -5678, 0), (500, -250, 99999)]

/-- Concrete instance of `pdb_format_lines`: 2 points give exactly 2 lines,
each of width 78. -/
theorem pdb_format_lines_witness :
    (atomLines pdb_witness_points).length = 2 ∧
      (atomLine 0 1234 (-5678) 0).length = 78 :=
  ⟨(pdb_format_lines pdb_witness_points (by decide) (by decide)).2.1,
   (pdb_format_lines pdb_witness_points (by decide) (by decide)).2.2
     (atomLine 0 1234 (-5678) 0) (by decide)⟩
